import Mathlib

/-!
Verification of the task-manager MCP server (`src/mcp/http-stream-mcp/src/main.rs`).

The server keeps a vector of tasks and a `next_id` counter behind mutexes and
exposes four tool handlers (`add_task`, `complete_task`, `list_tasks`,
`get_task`) plus the `get_info` handshake answer.  Every handler acquires the
lock(s) for its whole body, so each call is atomic with respect to the shared
state; we embed the store as a pure state `TaskManagerState` and each handler as
a function from state (and parameters) to the new state paired with its
`Result<CallToolResult, McpError>` value.
-/

namespace McpTaskManager

/-- `struct Task` from the source: id, title, description, completed. -/
structure Task where
  id : Nat
  title : String
  description : String
  completed : Bool
deriving Repr, DecidableEq

/-- The mutable state of `TaskManager`: the task vector and the `next_id`
counter (each behind an `Arc<Mutex<..>>` in the source; every handler locks
for its whole body, so calls are atomic and the state is modelled directly). -/
structure TaskManagerState where
  tasks : List Task
  next_id : Nat
deriving Repr, DecidableEq

/-- `TaskManager::new()`: empty task vector, counter starting at 1. -/
def TaskManager.new : TaskManagerState :=
  { tasks := [], next_id := 1 }

/-- JSON values, as built by the handlers via `serde_json::json!`.  Object
fields are kept in construction order. -/
inductive Json where
  | str : String → Json
  | num : Nat → Json
  | bool : Bool → Json
  | arr : List Json → Json
  | obj : List (String × Json) → Json

/-- Serde serialization of `Task` (derived `Serialize`, declaration
field order). -/
def Task.toJson (t : Task) : Json :=
  Json.obj [("id", Json.num t.id), ("title", Json.str t.title),
            ("description", Json.str t.description),
            ("completed", Json.bool t.completed)]

/-- `rmcp::ErrorData` (aliased `McpError` in the source): a JSON-RPC error
code, a message, and optional extra data. -/
structure McpError where
  code : Int
  message : String
  data : Option Json

/-- `ErrorData::invalid_params(msg, None)`: JSON-RPC code -32602. -/
def McpError.invalid_params (msg : String) (d : Option Json) : McpError :=
  { code := -32602, message := msg, data := d }

/-- `Content::text(..)`.  The source serializes the response object with
`serde_json::to_string_pretty`; we carry the JSON value that string renders. -/
inductive Content where
  | text : Json → Content

/-- `CallToolResult` with its success constructor (`is_error = false`). -/
structure CallToolResult where
  content : List Content
  is_error : Bool

/-- `CallToolResult::success(content)`. -/
def CallToolResult.success (c : List Content) : CallToolResult :=
  { content := c, is_error := false }

/-- `TaskManager::add_task`: build the task from the current counter, bump the
counter, push the task, answer with a success envelope holding the task. -/
def add_task (s : TaskManagerState) (title description : String) :
    TaskManagerState × Except McpError CallToolResult :=
  let task : Task :=
    { id := s.next_id, title := title, description := description,
      completed := false }
  let s' : TaskManagerState :=
    { tasks := s.tasks ++ [task], next_id := s.next_id + 1 }
  let response := Json.obj
    [("success", Json.bool true), ("task", task.toJson),
     ("message", Json.str ("Task \x27" ++ task.title ++
       "\x27 added successfully with ID " ++ toString task.id))]
  (s', Except.ok (CallToolResult.success [Content.text response]))

/-- `tasks.iter_mut().find(|t| t.id == id)` followed by `task.completed = true`:
set `completed` on the first task whose id matches, leave the rest alone. -/
def setCompletedFirst : List Task → Nat → List Task
  | [], _ => []
  | t :: ts, id =>
      if t.id = id then { t with completed := true } :: ts
      else t :: setCompletedFirst ts id

/-- `TaskManager::complete_task`: find the task by id; if found, mark it
completed and answer with the updated task, else fail with the
`invalid_params` error "Task with ID {id} not found". -/
def complete_task (s : TaskManagerState) (id : Nat) :
    TaskManagerState × Except McpError CallToolResult :=
  match s.tasks.find? (fun t => t.id == id) with
  | some t =>
      let t' : Task := { t with completed := true }
      let s' : TaskManagerState := { s with tasks := setCompletedFirst s.tasks id }
      let response := Json.obj
        [("success", Json.bool true), ("task", t'.toJson),
         ("message", Json.str ("Task \x27" ++ t'.title ++ "\x27 marked as completed"))]
      (s', Except.ok (CallToolResult.success [Content.text response]))
  | none =>
      (s, Except.error (McpError.invalid_params
            ("Task with ID " ++ toString id ++ " not found") none))

/-- `TaskManager::list_tasks`: answer `{total, tasks}` from the current
vector; the state is untouched. -/
def list_tasks (s : TaskManagerState) :
    TaskManagerState × Except McpError CallToolResult :=
  let response := Json.obj
    [("total", Json.num s.tasks.length),
     ("tasks", Json.arr (s.tasks.map Task.toJson))]
  (s, Except.ok (CallToolResult.success [Content.text response]))

/-- `TaskManager::get_task`: find the task by id; if found answer
`{success, task}`, else fail with the `invalid_params` error
"Task with ID {id} not found"; the state is untouched either way. -/
def get_task (s : TaskManagerState) (id : Nat) :
    TaskManagerState × Except McpError CallToolResult :=
  match s.tasks.find? (fun t => t.id == id) with
  | some t =>
      let response := Json.obj
        [("success", Json.bool true), ("task", t.toJson)]
      (s, Except.ok (CallToolResult.success [Content.text response]))
  | none =>
      (s, Except.error (McpError.invalid_params
            ("Task with ID " ++ toString id ++ " not found") none))

/-- `ProtocolVersion::V_2024_11_05`. -/
inductive ProtocolVersion where
  | V_2024_11_05
deriving Repr, DecidableEq

/-- `rmcp::model::ServerCapabilities`, reduced to which capability groups are
advertised; `ServerCapabilities::builder()` starts with none. -/
structure ServerCapabilities where
  completions : Bool
  experimental : Bool
  logging : Bool
  prompts : Bool
  resources : Bool
  tools : Bool
deriving Repr, DecidableEq

/-- `ServerCapabilities::builder()`: nothing advertised yet. -/
def ServerCapabilities.builder : ServerCapabilities :=
  { completions := false, experimental := false, logging := false,
    prompts := false, resources := false, tools := false }

/-- `.enable_tools()` on the builder. -/
def ServerCapabilities.enable_tools (c : ServerCapabilities) : ServerCapabilities :=
  { c with tools := true }

/-- `rmcp::model::Implementation` (icon payloads elided; the source sets that
field to `None`). -/
structure Implementation where
  name : String
  version : String
  title : Option String
  website_url : Option String
  icons : Option (List String)
deriving Repr, DecidableEq

/-- `rmcp::model::ServerInfo`. -/
structure ServerInfo where
  protocol_version : ProtocolVersion
  capabilities : ServerCapabilities
  server_info : Implementation
  instructions : Option String
deriving Repr, DecidableEq

/-- `TaskManager::get_info` (the `ServerHandler` impl): ignores all mutable
state and returns the fixed server identity / capability answer. -/
def get_info (_s : TaskManagerState) : ServerInfo :=
  { protocol_version := ProtocolVersion.V_2024_11_05
  , capabilities := ServerCapabilities.builder.enable_tools
  , server_info :=
      { name := "task-manager", version := "0.1.0", title := none,
        website_url := none, icons := none }
  , instructions := some
      "A task manager MCP server that allows you to add, complete, list, and retrieve tasks with real-time updates." }

/-- One client-visible store operation, for reasoning about call sequences. -/
inductive Op where
  | add (title description : String)
  | complete (id : Nat)
  | get (id : Nat)
  | list
deriving Repr, DecidableEq

/-- The state after one operation (the handlers above, result discarded). -/
def applyOp (s : TaskManagerState) : Op → TaskManagerState
  | Op.add t d => (add_task s t d).1
  | Op.complete id => (complete_task s id).1
  | Op.get id => (get_task s id).1
  | Op.list => (list_tasks s).1

/-- The state after a sequence of operations. -/
def runOps (s : TaskManagerState) (ops : List Op) : TaskManagerState :=
  ops.foldl applyOp s

/-- The ids handed out by the `add_task` calls of a sequence, in call order
(each `add_task` answers with a task whose id is the counter at call time). -/
def addIds : TaskManagerState → List Op → List Nat
  | _, [] => []
  | s, Op.add t d :: ops => s.next_id :: addIds (applyOp s (Op.add t d)) ops
  | s, Op.complete id :: ops => addIds (applyOp s (Op.complete id)) ops
  | s, Op.get id :: ops => addIds (applyOp s (Op.get id)) ops
  | s, Op.list :: ops => addIds (applyOp s Op.list) ops

/-- How many `add_task` calls a sequence contains (they all succeed). -/
def countAdds (ops : List Op) : Nat :=
  ops.countP (fun op => match op with | Op.add _ _ => true | _ => false)

/-- The store invariant: the counter is one past the number of tasks, and the
stored ids are exactly `1, 2, ..., length` in order. -/
def Inv (s : TaskManagerState) : Prop :=
  s.next_id = s.tasks.length + 1 ∧ s.tasks.map Task.id = List.range' 1 s.tasks.length

/-- A concrete one-task store, for exercising the theorems. -/
def sampleOne : TaskManagerState :=
  { tasks := [{ id := 1, title := "a", description := "b", completed := false }],
    next_id := 2 }

/-- A concrete two-task store, for exercising the theorems. -/
def sampleTwo : TaskManagerState :=
  { tasks := [{ id := 1, title := "a", description := "b", completed := false },
              { id := 2, title := "c", description := "d", completed := false }],
    next_id := 3 }

/-! ### Helper lemmas about `setCompletedFirst` -/

lemma length_setCompletedFirst (ts : List Task) (id : Nat) :
    (setCompletedFirst ts id).length = ts.length := by
  induction ts with
  | nil => rfl
  | cons t ts ih => by_cases h : t.id = id <;> simp [setCompletedFirst, h, ih]

lemma map_id_setCompletedFirst (ts : List Task) (id : Nat) :
    (setCompletedFirst ts id).map Task.id = ts.map Task.id := by
  induction ts with
  | nil => rfl
  | cons t ts ih => by_cases h : t.id = id <;> simp [setCompletedFirst, h, ih]

lemma setCompletedFirst_eq_of_forall_ne (ts : List Task) (id : Nat)
    (h : ∀ t ∈ ts, t.id ≠ id) : setCompletedFirst ts id = ts := by
  induction ts with
  | nil => rfl
  | cons t ts ih =>
      have ht : t.id ≠ id := h t (by simp)
      simp [setCompletedFirst, ht, ih (fun u hu => h u (by simp [hu]))]

lemma setCompletedFirst_eq_map (ts : List Task) (id : Nat)
    (hnd : (ts.map Task.id).Nodup) :
    setCompletedFirst ts id =
      ts.map (fun u => if u.id = id then { u with completed := true } else u) := by
  induction ts with
  | nil => rfl
  | cons t ts ih =>
      have hmem : t.id ∉ ts.map Task.id := (List.nodup_cons.1 (by simpa using hnd)).1
      have hnd' : (ts.map Task.id).Nodup := (List.nodup_cons.1 (by simpa using hnd)).2
      by_cases h : t.id = id
      · have hts : ∀ u ∈ ts, u.id ≠ id := by
          intro u hu heq
          exact hmem (by rw [h, ← heq]; exact List.mem_map_of_mem Task.id hu)
        have : ts.map (fun u => if u.id = id then { u with completed := true } else u) = ts := by
          calc ts.map (fun u => if u.id = id then { u with completed := true } else u)
              = ts.map (fun u => u) := List.map_congr_left (by intro u hu; simp [hts u hu])
            _ = ts := List.map_id ts
        simp [setCompletedFirst, h, this]
      · simp [setCompletedFirst, h, ih hnd']

lemma find?_setCompletedFirst (ts : List Task) (id : Nat) (t : Task)
    (h : ts.find? (fun u => u.id == id) = some t) :
    (setCompletedFirst ts id).find? (fun u => u.id == id) =
      some { t with completed := true } := by
  induction ts with
  | nil => simp [List.find?] at h
  | cons a ts ih =>
      by_cases ha : a.id = id
      · rw [List.find?_cons_of_pos _ (by simp [ha])] at h
        cases h
        simp [setCompletedFirst, ha, List.find?_cons_of_pos]
      · rw [List.find?_cons_of_neg _ (by simp [ha])] at h
        simpa [setCompletedFirst, ha, List.find?_cons_of_neg] using ih h

lemma setCompletedFirst_idem (ts : List Task) (id : Nat) :
    setCompletedFirst (setCompletedFirst ts id) id = setCompletedFirst ts id := by
  induction ts with
  | nil => rfl
  | cons t ts ih => by_cases h : t.id = id <;> simp [setCompletedFirst, h, ih]

/-! ### Helper lemmas about the handlers' state components -/

lemma get_task_fst (s : TaskManagerState) (id : Nat) : (get_task s id).1 = s := by
  unfold get_task
  cases s.tasks.find? (fun t => t.id == id) <;> rfl

lemma complete_task_fst (s : TaskManagerState) (id : Nat) :
    (complete_task s id).1 = { s with tasks := setCompletedFirst s.tasks id } := by
  unfold complete_task
  cases hfind : s.tasks.find? (fun t => t.id == id) with
  | some t => rfl
  | none =>
      have : ∀ t ∈ s.tasks, t.id ≠ id := by
        intro t ht heq
        have := List.find?_eq_none.1 hfind t ht
        simp [heq] at this
      simp [setCompletedFirst_eq_of_forall_ne s.tasks id this]

lemma next_id_applyOp (s : TaskManagerState) (op : Op) :
    s.next_id ≤ (applyOp s op).next_id := by
  cases op with
  | add t d => simp [applyOp, add_task]
  | complete id => simp [applyOp, complete_task_fst]
  | get id => simp [applyOp, get_task_fst]
  | list => exact Nat.le_refl _

lemma length_applyOp_add (s : TaskManagerState) (t d : String) :
    (applyOp s (Op.add t d)).tasks.length = s.tasks.length + 1 := by
  simp [applyOp, add_task]

lemma inv_new : Inv TaskManager.new := by
  constructor <;> rfl

lemma inv_applyOp (s : TaskManagerState) (op : Op) (h : Inv s) : Inv (applyOp s op) := by
  obtain ⟨hc, hids⟩ := h
  cases op with
  | add t d =>
      refine ⟨by simp [applyOp, add_task, hc], ?_⟩
      have : List.range' 1 (s.tasks.length + 1) =
          List.range' 1 s.tasks.length ++ [1 + s.tasks.length] := by
        simpa using List.range'_1_concat 1 s.tasks.length
      simp [applyOp, add_task, hids, this, hc, Nat.add_comm]
  | complete id =>
      refine ⟨?_, ?_⟩
      · simp [applyOp, complete_task_fst, hc, length_setCompletedFirst]
      · simp [applyOp, complete_task_fst, map_id_setCompletedFirst,
              length_setCompletedFirst, hids]
  | get id => simpa [applyOp, get_task_fst] using ⟨hc, hids⟩
  | list => exact ⟨hc, hids⟩

lemma inv_runOps (ops : List Op) : ∀ s, Inv s → Inv (runOps s ops) := by
  induction ops with
  | nil => intro s h; exact h
  | cons op ops ih =>
      intro s h
      exact ih (applyOp s op) (inv_applyOp s op h)

lemma next_id_le_addIds (ops : List Op) :
    ∀ (s : TaskManagerState), ∀ x ∈ addIds s ops, s.next_id ≤ x := by
  induction ops with
  | nil => intro s x hx; simp [addIds] at hx
  | cons op ops ih =>
      intro s x hx
      have hle : s.next_id ≤ (applyOp s op).next_id := next_id_applyOp s op
      cases op with
      | add t d =>
          rcases List.mem_cons.1 hx with hx | hx
          · exact Nat.le_of_eq hx.symm
          · exact Nat.le_trans hle (ih _ x hx)
      | complete id => exact Nat.le_trans hle (ih _ x hx)
      | get id => exact Nat.le_trans hle (ih _ x hx)
      | list => exact Nat.le_trans hle (ih _ x hx)

lemma pairwise_addIds (ops : List Op) :
    ∀ s, (addIds s ops).Pairwise (· < ·) := by
  induction ops with
  | nil => intro s; simp [addIds]
  | cons op ops ih =>
      intro s
      cases op with
      | add t d =>
          refine List.Pairwise.cons ?_ (ih _)
          intro x hx
          have h1 := next_id_le_addIds ops (applyOp s (Op.add t d)) x hx
          have h2 : (applyOp s (Op.add t d)).next_id = s.next_id + 1 := by
            simp [applyOp, add_task]
          omega
      | complete id => exact ih _
      | get id => exact ih _
      | list => exact ih _

lemma length_runOps (ops : List Op) :
    ∀ s, (runOps s ops).tasks.length = s.tasks.length + countAdds ops := by
  induction ops with
  | nil => intro s; simp [runOps, countAdds]
  | cons op ops ih =>
      intro s
      have hrun : runOps s (op :: ops) = runOps (applyOp s op) ops := rfl
      rw [hrun, ih]
      cases op with
      | add t d => simp [length_applyOp_add, countAdds, List.countP_cons]; omega
      | complete id =>
          simp [applyOp, complete_task_fst, length_setCompletedFirst, countAdds,
                List.countP_cons]
      | get id => simp [applyOp, get_task_fst, countAdds, List.countP_cons]
      | list => simp [applyOp, list_tasks, countAdds, List.countP_cons]

lemma find?_id_of_exists (ts : List Task) (id : Nat)
    (h : ∃ t ∈ ts, t.id = id) :
    ∃ t, ts.find? (fun u => u.id == id) = some t ∧ t ∈ ts ∧ t.id = id := by
  obtain ⟨t, ht, hid⟩ := h
  have hsome : (ts.find? (fun u => u.id == id)).isSome :=
    List.find?_isSome.2 ⟨t, ht, by simp [hid]⟩
  obtain ⟨t₀, ht₀⟩ := Option.isSome_iff_exists.1 hsome
  exact ⟨t₀, ht₀, List.mem_of_find?_eq_some ht₀, by simpa using List.find?_some ht₀⟩

lemma get_id_of_inv (s : TaskManagerState) (h : Inv s) (i : Nat)
    (hi : i < s.tasks.length) : (s.tasks.get ⟨i, hi⟩).id = i + 1 := by
  have h1 : (s.tasks.map Task.id)[i]? = (List.range' 1 s.tasks.length)[i]? :=
    congrArg (fun l => l[i]?) h.2
  rw [List.getElem?_map] at h1
  have h2 : (List.range' 1 s.tasks.length)[i]? = some (1 + i) := by
    simpa using List.getElem?_range' 1 1 hi
  have h3 : s.tasks[i]? = some (s.tasks.get ⟨i, hi⟩) := by
    simp [List.getElem?_eq_getElem hi]
  rw [h3, h2] at h1
  simp at h1
  simp only [List.get_eq_getElem]
  omega

/-! ### The claims -/

/-- C1 (counterexample): the claim says `add_task` with an empty title fails
with an `InvalidArgument` error, appends nothing and leaves the counter alone.
On the fresh store, `add_task("", "x")` in fact succeeds, appends the task and
bumps the counter to 2: the source performs no title validation at all. -/
theorem add_task_empty_title_claim_false :
    (add_task TaskManager.new "" "x").2.isOk = true ∧
    (add_task TaskManager.new "" "x").1.tasks =
      [{ id := 1, title := "", description := "x", completed := false }] ∧
    (add_task TaskManager.new "" "x").1.next_id = 2 :=
  ⟨rfl, rfl, rfl⟩

/-- C1 (amended): for every store state and description, `add_task` with an
empty title behaves exactly like any other add — it succeeds, appends a task
with the empty title, `completed = false` and the current counter as id, and
increments the counter; no title validation is performed. -/
theorem add_task_empty_title_succeeds (s : TaskManagerState) (description : String) :
    add_task s "" description =
      ({ tasks := s.tasks ++
            [{ id := s.next_id, title := "", description := description,
               completed := false }],
          next_id := s.next_id + 1 },
       Except.ok (CallToolResult.success [Content.text (Json.obj
         [("success", Json.bool true),
          ("task", Task.toJson
            { id := s.next_id, title := "", description := description,
              completed := false }),
          ("message", Json.str ("Task \x27\x27 added successfully with ID " ++
            toString s.next_id))])])) := rfl

/-- C2: for every non-empty title and every description, `add_task` assigns
the current counter value as the new task's id, increments the counter by
one, appends the new task (with `completed = false`) at the end of the
collection — leaving every other task unchanged — and returns that task in
its success envelope. -/
theorem add_task_appends_and_increments (s : TaskManagerState)
    (title description : String) (h : title ≠ "") :
    add_task s title description =
      ({ tasks := s.tasks ++
            [{ id := s.next_id, title := title, description := description,
               completed := false }],
          next_id := s.next_id + 1 },
       Except.ok (CallToolResult.success [Content.text (Json.obj
         [("success", Json.bool true),
          ("task", Task.toJson
            { id := s.next_id, title := title, description := description,
              completed := false }),
          ("message", Json.str ("Task \x27" ++ title ++
            "\x27 added successfully with ID " ++ toString s.next_id))])])) := rfl

/-- Witness for C2 at the fresh store with title "Write spec". -/
theorem add_task_appends_and_increments_witness :
    add_task TaskManager.new "Write spec" "draft v1" =
      ({ tasks := [{ id := 1, title := "Write spec", description := "draft v1",
                     completed := false }],
          next_id := 2 },
       Except.ok (CallToolResult.success [Content.text (Json.obj
         [("success", Json.bool true),
          ("task", Task.toJson
            { id := 1, title := "Write spec", description := "draft v1",
              completed := false }),
          ("message", Json.str "Task \x27Write spec\x27 added successfully with ID 1")])])) :=
  add_task_appends_and_increments TaskManager.new "Write spec" "draft v1" (by decide)

/-- C3: over any sequence of operations from the fresh store, the ids handed
out by the `add_task` calls are strictly increasing (hence never repeat), and
the ids stored in the resulting collection are pairwise distinct — an id once
assigned is never reassigned. -/
theorem add_ids_strictly_increasing (ops : List Op) :
    (addIds TaskManager.new ops).Pairwise (· < ·) ∧
    ((runOps TaskManager.new ops).tasks.map Task.id).Nodup := by
  refine ⟨pairwise_addIds ops TaskManager.new, ?_⟩
  rw [(inv_runOps ops TaskManager.new inv_new).2]
  exact List.nodup_range' ..

/-- C4: when no task carries the requested id, `complete_task` fails with the
task-not-found error (the source reports it as an `invalid_params` protocol
error whose message is "Task with ID {id} not found") and returns the store
unchanged: same collection, same counter. -/
theorem complete_task_not_found (s : TaskManagerState) (id : Nat)
    (h : ∀ t ∈ s.tasks, t.id ≠ id) :
    complete_task s id =
      (s, Except.error (McpError.invalid_params
        ("Task with ID " ++ toString id ++ " not found") none)) := by
  have hfind : s.tasks.find? (fun t => t.id == id) = none :=
    List.find?_eq_none.2 (by intro t ht; simpa using h t ht)
  unfold complete_task
  rw [hfind]

/-- Witness for C4: completing id 5 on the fresh (empty) store. -/
theorem complete_task_not_found_witness :
    complete_task TaskManager.new 5 =
      (TaskManager.new, Except.error (McpError.invalid_params
        ("Task with ID " ++ toString 5 ++ " not found") none)) :=
  complete_task_not_found TaskManager.new 5
    (by intro t ht; simp [TaskManager.new] at ht)

/-- C5: `complete_task` is idempotent — if some task carries the id, the
first call succeeds reporting a task with `completed = true`, and the second
call on the resulting store succeeds too, reports the very same task, and
leaves the store exactly as the first call left it. -/
theorem complete_task_idempotent (s : TaskManagerState) (id : Nat)
    (h : ∃ t ∈ s.tasks, t.id = id) :
    ∃ t : Task, t.completed = true ∧
      complete_task s id =
        ({ s with tasks := setCompletedFirst s.tasks id },
         Except.ok (CallToolResult.success [Content.text (Json.obj
           [("success", Json.bool true), ("task", t.toJson),
            ("message", Json.str ("Task \x27" ++ t.title ++
              "\x27 marked as completed"))])])) ∧
      complete_task (complete_task s id).1 id =
        ((complete_task s id).1,
         Except.ok (CallToolResult.success [Content.text (Json.obj
           [("success", Json.bool true), ("task", t.toJson),
            ("message", Json.str ("Task \x27" ++ t.title ++
              "\x27 marked as completed"))])])) := by
  obtain ⟨t₀, hfind, _, _⟩ := find?_id_of_exists s.tasks id h
  refine ⟨{ t₀ with completed := true }, rfl, ?_, ?_⟩
  · unfold complete_task
    rw [hfind]
  · have hfind2 : (setCompletedFirst s.tasks id).find? (fun u => u.id == id) =
        some { t₀ with completed := true } :=
      find?_setCompletedFirst s.tasks id t₀ hfind
    rw [complete_task_fst]
    unfold complete_task
    have htasks : ({ s with tasks := setCompletedFirst s.tasks id } :
        TaskManagerState).tasks = setCompletedFirst s.tasks id := rfl
    rw [htasks, hfind2]
    simp [setCompletedFirst_idem]

/-- Witness for C5 on a one-task store. -/
theorem complete_task_idempotent_witness :
    ∃ t : Task, t.completed = true ∧
      complete_task sampleOne 1 =
        ({ sampleOne with tasks := setCompletedFirst sampleOne.tasks 1 },
         Except.ok (CallToolResult.success [Content.text (Json.obj
           [("success", Json.bool true), ("task", t.toJson),
            ("message", Json.str ("Task \x27" ++ t.title ++
              "\x27 marked as completed"))])])) ∧
      complete_task (complete_task sampleOne 1).1 1 =
        ((complete_task sampleOne 1).1,
         Except.ok (CallToolResult.success [Content.text (Json.obj
           [("success", Json.bool true), ("task", t.toJson),
            ("message", Json.str ("Task \x27" ++ t.title ++
              "\x27 marked as completed"))])])) :=
  complete_task_idempotent sampleOne 1
    ⟨{ id := 1, title := "a", description := "b", completed := false },
     by simp [sampleOne], rfl⟩

/-- C6: completing an existing id (in a store whose ids are distinct, as in
every reachable store) succeeds and changes only the `completed` field of the
task with that id; every other task, the order, the length and the counter
are untouched — and no operation ever deletes a task. -/
theorem complete_task_frame (s : TaskManagerState) (id : Nat)
    (hnd : (s.tasks.map Task.id).Nodup) (hex : ∃ t ∈ s.tasks, t.id = id) :
    (complete_task s id).2.isOk = true ∧
    (complete_task s id).1.next_id = s.next_id ∧
    (complete_task s id).1.tasks =
      s.tasks.map (fun u => if u.id = id then { u with completed := true } else u) ∧
    ∀ (s' : TaskManagerState) (op : Op),
      s'.tasks.length ≤ (applyOp s' op).tasks.length := by
  obtain ⟨t₀, hfind, _, _⟩ := find?_id_of_exists s.tasks id hex
  refine ⟨?_, ?_, ?_, ?_⟩
  · unfold complete_task
    rw [hfind]
    rfl
  · rw [complete_task_fst]
  · rw [complete_task_fst]
    exact setCompletedFirst_eq_map s.tasks id hnd
  · intro s' op
    cases op with
    | add t d => simp [applyOp, add_task]
    | complete i => simp [applyOp, complete_task_fst, length_setCompletedFirst]
    | get i => simp [applyOp, get_task_fst]
    | list => exact Nat.le_refl _

/-- Witness for C6 on a two-task store, completing id 1. -/
theorem complete_task_frame_witness :
    (complete_task sampleTwo 1).1.tasks =
      sampleTwo.tasks.map
        (fun u => if u.id = 1 then { u with completed := true } else u) :=
  (complete_task_frame sampleTwo 1 (by decide)
    ⟨{ id := 1, title := "a", description := "b", completed := false },
     by simp [sampleTwo], rfl⟩).2.2.1

/-- C7: `list_tasks` always succeeds, returns the store unchanged, and
answers `{total, tasks}` where `tasks` is exactly the collection in insertion
order and `total` its length; and on every reachable store that length equals
the number of (all successful) `add_task` calls made so far. -/
theorem list_tasks_snapshot (s : TaskManagerState) (ops : List Op) :
    list_tasks s = (s, Except.ok (CallToolResult.success [Content.text (Json.obj
      [("total", Json.num s.tasks.length),
       ("tasks", Json.arr (s.tasks.map Task.toJson))])])) ∧
    (runOps TaskManager.new ops).tasks.length = countAdds ops := by
  refine ⟨rfl, ?_⟩
  simpa [TaskManager.new] using length_runOps ops TaskManager.new

/-- C8: `get_task` never mutates the store; on an absent id it fails with the
task-not-found error (reported by the source as an `invalid_params` protocol
error with message "Task with ID {id} not found"), and on a present id it
succeeds, answering a copy of a stored task carrying that id. -/
theorem get_task_spec (s : TaskManagerState) (id : Nat) :
    (get_task s id).1 = s ∧
    ((∀ t ∈ s.tasks, t.id ≠ id) →
      (get_task s id).2 = Except.error (McpError.invalid_params
        ("Task with ID " ++ toString id ++ " not found") none)) ∧
    ((∃ t ∈ s.tasks, t.id = id) →
      ∃ t, t ∈ s.tasks ∧ t.id = id ∧
        (get_task s id).2 = Except.ok (CallToolResult.success [Content.text
          (Json.obj [("success", Json.bool true), ("task", t.toJson)])])) := by
  refine ⟨get_task_fst s id, ?_, ?_⟩
  · intro h
    have hfind : s.tasks.find? (fun t => t.id == id) = none :=
      List.find?_eq_none.2 (by intro t ht; simpa using h t ht)
    unfold get_task
    rw [hfind]
  · intro h
    obtain ⟨t, hfind, hmem, hid⟩ := find?_id_of_exists s.tasks id h
    refine ⟨t, hmem, hid, ?_⟩
    unfold get_task
    rw [hfind]

/-- Witness for C8: id 1 is absent from the fresh store, so `get_task`
answers the not-found error (and the store is unchanged). -/
theorem get_task_spec_witness :
    (get_task TaskManager.new 1).1 = TaskManager.new ∧
    (get_task TaskManager.new 1).2 = Except.error (McpError.invalid_params
      ("Task with ID " ++ toString 1 ++ " not found") none) :=
  ⟨(get_task_spec TaskManager.new 1).1,
   (get_task_spec TaskManager.new 1).2.1
     (by intro t ht; simp [TaskManager.new] at ht)⟩

/-- C9: `get_info` is a pure constant — it ignores the store entirely and
always answers the same server identity: name "task-manager", version
"0.1.0", protocol version 2024-11-05, and a capability set advertising tools
and nothing else. -/
theorem get_info_pure_constant (s s' : TaskManagerState) :
    get_info s = get_info s' ∧
    get_info s =
      { protocol_version := ProtocolVersion.V_2024_11_05
      , capabilities :=
          { completions := false, experimental := false, logging := false,
            prompts := false, resources := false, tools := true }
      , server_info :=
          { name := "task-manager", version := "0.1.0", title := none,
            website_url := none, icons := none }
      , instructions := some
          "A task manager MCP server that allows you to add, complete, list, and retrieve tasks with real-time updates." } :=
  ⟨rfl, rfl⟩

/-- C10: in every store reachable from the fresh store by any operation
sequence, the counter equals the number of tasks plus one, the task at
0-based position `i` has id `i + 1`, and hence the stored ids are pairwise
distinct and strictly sorted. -/
theorem reachable_state_invariant (ops : List Op) :
    (runOps TaskManager.new ops).next_id =
      (runOps TaskManager.new ops).tasks.length + 1 ∧
    (∀ i (hi : i < (runOps TaskManager.new ops).tasks.length),
      ((runOps TaskManager.new ops).tasks.get ⟨i, hi⟩).id = i + 1) ∧
    ((runOps TaskManager.new ops).tasks.map Task.id).Nodup ∧
    ((runOps TaskManager.new ops).tasks.map Task.id).Pairwise (· < ·) := by
  have hinv := inv_runOps ops TaskManager.new inv_new
  refine ⟨hinv.1, fun i hi => get_id_of_inv _ hinv i hi, ?_, ?_⟩
  · rw [hinv.2]
    exact List.nodup_range' ..
  · rw [hinv.2]
    exact List.pairwise_lt_range' ..

/-- Witness for C10: after two adds and a complete, the task at position 0
has id 1. -/
theorem reachable_state_invariant_witness :
    ((runOps TaskManager.new
        [Op.add "a" "b", Op.add "c" "d", Op.complete 1]).tasks.get
      ⟨0, by decide⟩).id = 0 + 1 :=
  (reachable_state_invariant
    [Op.add "a" "b", Op.add "c" "d", Op.complete 1]).2.1 0 (by decide)

end McpTaskManager
